import Mathlib

/-!
Verification of the portal file-transfer protocol engine.

The development shallowly embeds the receiver engine of the repository
(`TransmissionReceiver` in `main.go`: `ReadHeader`, `CreateFileWriter`,
`Copy`, `Process`, and the `wsHandler` session loop), the path-containment
guard inside `CreateFileWriter`, the sender-side backpressure logic
(`BlockingWebSocket` in `internal/public/index.js`), and the post-`EOF`
completion hand-off of `Copy` as a two-thread interleaving model.

Paths are modelled as lists of segments of characters (Go strings are byte
slices; all inputs of interest are ASCII, so one character models one
byte).  The gzip codec used by the pipeline lives in the Go standard
library, outside this repository; it is modelled as an abstract decode
function passed as a parameter.
-/

/-- A path segment: the characters between two separators of a
slash-separated path. -/
abbrev Seg := List Char

/-- A textual path or text-message payload, as a list of characters. -/
abbrev Str := List Char

/-- Raw binary payload bytes. -/
abbrev Bytes := List Nat

/-- The segment consisting of a single dot, `"."`. -/
def dotSeg : Seg := ['.']

/-- The parent-escape segment `".."`. -/
def dotdotSeg : Seg := ['.', '.']

/-- The two-character string `".."` that `CreateFileWriter` compares
`relPath` and `relPath[:2]` against (main.go:124). -/
def dotdotStr : Str := ['.', '.']

/-- Splits a slash-separated path into its segments, keeping empty
segments (they are discarded later by cleaning), mirroring how
`path/filepath` walks separator boundaries. -/
def splitSlash : Str → List Seg
  | [] => [[]]
  | c :: cs =>
    match splitSlash cs with
    | [] => [[c]]
    | g :: gs => if c = '/' then [] :: g :: gs else (c :: g) :: gs

/-- One step of lexical path cleaning on a rooted path: empty and `"."`
segments are dropped, `".."` removes the previous segment (and is dropped
at the root), any other segment is kept.  This is `filepath.Clean`
restricted to absolute paths, as used by `filepath.Join(wd, h.Name)`
(main.go:121). -/
def cleanStep (acc : List Seg) (s : Seg) : List Seg :=
  if s = [] ∨ s = dotSeg then acc
  else if s = dotdotSeg then acc.dropLast
  else acc ++ [s]

/-- Lexical cleaning of a rooted path given as a segment list. -/
def cleanAbs (segs : List Seg) : List Seg :=
  segs.foldl cleanStep []

/-- The absolute destination path `p := filepath.Join(wd, h.Name)` computed
by `CreateFileWriter` (main.go:121): the working directory's segments, the
client name's segments appended, then cleaned. -/
def joinedPath (wd : List Seg) (name : Str) : List Seg :=
  cleanAbs (wd ++ splitSlash name)

/-- Strips the longest common prefix of two segment lists, returning the
two remainders.  This is the common-prefix scan inside `filepath.Rel`. -/
def commonStrip : List Seg → List Seg → List Seg × List Seg
  | [], ts => ([], ts)
  | b :: bs, [] => (b :: bs, [])
  | b :: bs, t :: ts => if b = t then commonStrip bs ts else (b :: bs, t :: ts)

/-- The segments of `filepath.Rel(base, targ)` for cleaned absolute
inputs: one `".."` per remaining base segment, then the remaining target
segments; `"."` when nothing remains (main.go:124 computes
`filepath.Rel(wd, p)`). -/
def goFilepathRel (base targ : List Seg) : List Seg :=
  let pr := commonStrip base targ
  if pr.1 = [] ∧ pr.2 = [] then [dotSeg]
  else List.replicate pr.1.length dotdotSeg ++ pr.2

/-- Renders a segment list back to a slash-separated string, as
`filepath.Rel` returns it. -/
def renderPath : List Seg → Str
  | [] => []
  | [s] => s
  | s :: r :: rs => s ++ '/' :: renderPath (r :: rs)

/-- The string `relPath` that main.go:124 inspects: the rendered result of
`filepath.Rel(wd, filepath.Join(wd, name))`. -/
def relString (wd : List Seg) (name : Str) : Str :=
  renderPath (goFilepathRel wd (joinedPath wd name))

/-- Failure of the containment check in `CreateFileWriter`
(main.go:124). -/
inductive GuardErr
  /-- the branch `relPath == ".." || relPath[:2] == ".."`: the destination
  is reported as outside the working directory and an error is returned. -/
  | outsideWd
  /-- evaluating `relPath[:2]` on a string shorter than two bytes, a Go
  runtime slice-bounds violation that crashes the handler. -/
  | sliceBound
  deriving DecidableEq, Repr

/-- The containment check of `CreateFileWriter` (main.go:120-127).  The Go
condition is evaluated left to right with short-circuiting:
`relPath == ".."`, then `relPath[:2] == ".."`; the slice expression is
only reached when the equality with `".."` failed, and it is a runtime
bounds violation whenever `relPath` has fewer than two bytes. -/
def createFileWriterCheck (wd : List Seg) (name : Str) : Except GuardErr (List Seg) :=
  if relString wd name = dotdotStr then .error .outsideWd
  else if (relString wd name).length < 2 then .error .sliceBound
  else if (relString wd name).take 2 = dotdotStr then .error .outsideWd
  else .ok (joinedPath wd name)

/-- Filesystem and wire events observable from the receiver. -/
inductive Event
  /-- the receiver starts reading a header (`ReadHeader`, the
  AwaitingHeader state). -/
  | awaitHeader
  /-- the `READY` control signal is written to the channel
  (main.go:217). -/
  | sentReady
  /-- the confirming `EOF` control signal is written after a successful
  drain (main.go:166). -/
  | sentEOF
  /-- an error/close message is written to the peer (`t.Error`,
  main.go:63-70). -/
  | sentError
  /-- `os.MkdirAll` on the parent directory of the destination
  (main.go:131). -/
  | mkdirAll (p : List Seg)
  /-- `os.Create` of the destination file (main.go:136). -/
  | createFile (p : List Seg)
  /-- the deferred finalisation of `Process` (main.go:225-236): the file is
  closed and its modification time set; `content` is the bytes the decoder
  wrote in full (`none` when the decode did not complete), `mtimeNanos`
  the epoch-nanosecond timestamp passed to `os.Chtimes`. -/
  | finalize (p : List Seg) (content : Option Bytes) (mtimeNanos : Int)
  deriving DecidableEq, Repr

/-- The directory-creation and file-creation behaviour of
`CreateFileWriter` (main.go:120-142): the containment check runs first;
only when it passes are the parent directories created and the file
opened. -/
def createFileWriterEvents (wd : List Seg) (name : Str) :
    List Event × Except GuardErr (List Seg) :=
  match createFileWriterCheck wd name with
  | .error e => ([], .error e)
  | .ok p => ([.mkdirAll p.dropLast, .createFile p], .ok p)

/-- Whether a client-supplied name contains a parent-escape segment. -/
def hasParentEscape (name : Str) : Bool :=
  (splitSlash name).any fun s => s == dotdotSeg

/-- The characters of the control literal `"EOF"` (main.go:55). -/
def eofStr : Str := ['E', 'O', 'F']

/-- The characters of the control literal `"EOT"` (main.go:56). -/
def eotStr : Str := ['E', 'O', 'T']

/-- The bytes of the literal `"EOT"`, which `ReadHeader` compares the raw
message bytes against regardless of the message type (main.go:107). -/
def eotBytes : Bytes := [69, 79, 84]

/-- The file header sent before each file (main.go:34-43), with the JSON
field names `name`, `size`, `lastModified`, `mime`. -/
structure Header where
  name : Str
  size : Int
  lastModified : Int
  mime : Str
  deriving DecidableEq, Repr

/-- One inbound channel observation, as seen by `conn.ReadMessage`. -/
inductive WireMsg
  /-- a text frame carrying the given characters. -/
  | text (s : Str)
  /-- a binary frame carrying the given bytes. -/
  | bin (b : Bytes)
  /-- a text frame whose bytes are a valid JSON document unmarshalling to
  the given header (`json.Unmarshal`, main.go:112; a JSON document is never
  one of the three-letter control literals). -/
  | jsonHeader (h : Header)
  /-- the read reports a close with code `CloseNormalClosure`, which
  `Copy` treats as a normal end (main.go:176-178). -/
  | closeNormal
  /-- the read reports any other transport error. -/
  | transportErr
  deriving DecidableEq, Repr

/-- The denotation of Go's `time.UnixMilli(v)`: the epoch-nanosecond
timestamp of `v` milliseconds after the epoch, as handed to `os.Chtimes`
(main.go:231-233). -/
def goTimeUnixMilli (msec : Int) : Int := msec * 1000000

/-- How the read loop of `Copy` (main.go:173-198) terminated. -/
inductive CopyOut
  /-- the `EOF` text literal arrived: the loop breaks and closes the
  pipe's input side (main.go:184-187, 200). -/
  | okEOF
  /-- the read failed with `CloseNormalClosure`: `Copy` returns `nil`
  without closing the pipe writer (main.go:176-178). -/
  | okClosedEarly
  /-- the `EOT` text literal arrived mid-file: `Copy` returns `EotError`
  and the partially written file is left as-is (main.go:189-192). -/
  | eotMid
  /-- the read failed with any other error (main.go:179-181), or the
  message stream was exhausted. -/
  | readFail
  deriving DecidableEq, Repr

/-- The read loop of `Copy` (main.go:173-198) over the remaining channel
messages, accumulating the compressed bytes written to the pipe.  A text
frame other than the `EOF` and `EOT` literals reaches the write at
main.go:195 with `message == nil` (`Read` returns a nil byte slice for
text frames, main.go:87-89), so it contributes no bytes and no error: it
is silently skipped.  Binary frames are appended to the pipe verbatim,
even when their bytes spell a control literal. -/
def copyLoop : List WireMsg → Bytes → CopyOut × Bytes × List WireMsg
  | [], acc => (.readFail, acc, [])
  | .closeNormal :: r, acc => (.okClosedEarly, acc, r)
  | .transportErr :: r, acc => (.readFail, acc, r)
  | .text s :: r, acc =>
    if s = eofStr then (.okEOF, acc, r)
    else if s = eotStr then (.eotMid, acc, r)
    else copyLoop r acc
  | .jsonHeader _ :: r, acc => copyLoop r acc
  | .bin b :: r, acc => copyLoop r (acc ++ b)

/-- Outcome of one `Process` call (main.go:207-247), as consumed by the
`wsHandler` loop (main.go:261-271). -/
inductive POutcome
  /-- `Process` returned `nil`: the loop calls `Process` again. -/
  | ok
  /-- `Process` returned an error wrapping `EotError`: the loop breaks
  cleanly. -/
  | eot
  /-- `Process` returned any other error: the loop reports it to the peer
  and breaks. -/
  | err
  deriving DecidableEq, Repr

/-- The per-file phase of `Process` after `CreateFileWriter` succeeded
(main.go:221-246), with `dec` the denotation of the gzip decoder reading
the pipe: the read loop runs; when it broke on `EOF` the pipe's input side
is closed (main.go:200) and the decoder drains, writing `dec` of the
accumulated compressed bytes to the file and signalling `EOF` on success
or an error message on decode/write failure (main.go:163-169); in every
case the deferred block closes the file and stamps `time.UnixMilli`
(main.go:225-236).  A `content` of `none` records that the decoder never
reported a complete drain for the file.  This is the sequential
denotation in which the drain finishes before the finalisation; the
source enforces no such ordering (no `wg.Wait()`), and the
unsynchronised hand-off with its schedule-dependent file contents is
modelled separately by `interleaveActs` and `runHandoff`. -/
def runFile (dec : Bytes → Option Bytes) (p : List Seg) (h : Header)
    (rest : List WireMsg) : POutcome × List Event × List WireMsg :=
  let pre : List Event :=
    [.awaitHeader, .sentReady, .mkdirAll p.dropLast, .createFile p]
  let mt := goTimeUnixMilli h.lastModified
  match copyLoop rest [] with
  | (.okEOF, acc, rest') =>
    match dec acc with
    | some out => (.ok, pre ++ [.sentEOF, .finalize p (some out) mt], rest')
    | none => (.ok, pre ++ [.sentError, .finalize p none mt], rest')
  | (.okClosedEarly, _, rest') => (.ok, pre ++ [.finalize p none mt], rest')
  | (.eotMid, _, rest') => (.eot, pre ++ [.finalize p none mt], rest')
  | (.readFail, _, rest') => (.err, pre ++ [.finalize p none mt], rest')

/-- One `Process` call (main.go:207-247): read a header (`ReadHeader`
compares the raw bytes to `"EOT"` before unmarshalling, main.go:101-118),
reject empty names (main.go:212), emit `READY` (main.go:217), run
`CreateFileWriter` (main.go:221), then copy.  Returns the outcome, the
events in program order, and the messages left unread. -/
def processBody (wd : List Seg) (dec : Bytes → Option Bytes) :
    List WireMsg → POutcome × List Event × List WireMsg
  | [] => (.err, [.awaitHeader], [])
  | .closeNormal :: rest => (.err, [.awaitHeader], rest)
  | .transportErr :: rest => (.err, [.awaitHeader], rest)
  | .text s :: rest =>
    if s = eotStr then (.eot, [.awaitHeader], rest)
    else (.err, [.awaitHeader], rest)
  | .bin b :: rest =>
    if b = eotBytes then (.eot, [.awaitHeader], rest)
    else (.err, [.awaitHeader], rest)
  | .jsonHeader h :: rest =>
    if h.name = [] then (.err, [.awaitHeader], rest)
    else
      match createFileWriterCheck wd h.name with
      | .error _ => (.err, [.awaitHeader, .sentReady], rest)
      | .ok p => runFile dec p h rest

/-- How a session ended. -/
inductive SessionEnd
  /-- the `wsHandler` loop broke on `EotError` without reporting an
  error. -/
  | clean
  /-- the loop reported the error to the peer and broke. -/
  | errored
  deriving DecidableEq, Repr

/-- Fuel-bounded `wsHandler` loop (main.go:261-271): call `Process` until
it returns an error; `EotError` ends the session cleanly, any other error
is sent to the peer via `t.Error` before the loop breaks. -/
def sessionGo (wd : List Seg) (dec : Bytes → Option Bytes) :
    Nat → List WireMsg → SessionEnd × List Event
  | 0, _ => (.errored, [])
  | Nat.succ fuel, msgs =>
    match processBody wd dec msgs with
    | (.ok, evs, rest) =>
      let r := sessionGo wd dec fuel rest
      (r.1, evs ++ r.2)
    | (.eot, evs, _) => (.clean, evs)
    | (.err, evs, _) => (.errored, evs ++ [.sentError])

/-- A whole session over a finite message sequence.  Each `Process` call
consumes at least one message, so `length + 1` fuel never runs out. -/
def sessionRun (wd : List Seg) (dec : Bytes → Option Bytes)
    (msgs : List WireMsg) : SessionEnd × List Event :=
  sessionGo wd dec (msgs.length + 1) msgs

/-- Concatenation of a list of binary chunks. -/
def concatBytes (l : List Bytes) : Bytes :=
  l.foldr (· ++ ·) []

/-- The default backpressure threshold of `BlockingWebSocket`:
`1024 * 1024 * 2` bytes, 2 MiB (index.js:170). -/
def bufferedThreshold : Nat := 1024 * 1024 * 2

/-- Observable events of one `BlockingWebSocket.send` call
(index.js:175-198).  Every delay and the final send carry the
`bufferedAmount` value observed by the check that caused them. -/
inductive SEv
  /-- one read of `ws.bufferedAmount`. -/
  | check (v : Nat)
  /-- a 50 ms `setTimeout` sleep scheduled after observing the given
  amount above the threshold (index.js:193). -/
  | delay50 (v : Nat)
  /-- the frame is handed to `ws.send` after observing the given amount
  (index.js:182). -/
  | send (v : Nat)
  deriving DecidableEq, Repr

/-- One `BlockingWebSocket.send` call over the successive values that the
polls of `ws.bufferedAmount` observe.  Mode `true` is the `while` loop
head (index.js:177, proceeds to send when the amount does not exceed the
threshold); mode `false` is inside `waitForBuffer` (index.js:185-197,
resolves when the amount is at most the threshold, otherwise sleeps 50 ms
and re-polls).  An exhausted observation list means the call is still
waiting. -/
def bwsRun (th : Nat) : Bool → List Nat → List SEv
  | _, [] => []
  | true, v :: vs =>
    if th < v then .check v :: bwsRun th false vs
    else [.check v, .send v]
  | false, v :: vs =>
    if v ≤ th then .check v :: bwsRun th true vs
    else .check v :: .delay50 v :: bwsRun th false vs

/-- Atomic actions of the completion hand-off of `Copy` and `Process`
after the read loop received `EOF` (main.go:144-205, 225-236). -/
inductive CAct
  /-- `pipeWriter.Close()` (main.go:200). -/
  | closePipeW
  /-- the deferred `pipeReader.Close()` when `Copy` returns
  (main.go:146). -/
  | closePipeR
  /-- `f.Close()` in the deferred block of `Process` (main.go:226). -/
  | closeFile
  /-- `os.Chtimes` setting the modification time (main.go:233). -/
  | setMtime
  /-- the gzip goroutine writes the remaining decoded bytes to the file
  (`io.Copy(dst, gzipReader)`, main.go:163). -/
  | decWrite
  /-- the gzip goroutine finishes and calls `wg.Done()`
  (main.go:153). -/
  | decDone
  deriving DecidableEq, Repr

/-- The actions the receiving goroutine performs after the read loop saw
`EOF`, in program order.  `Copy` creates a `sync.WaitGroup` and the
decoder goroutine calls `wg.Done()`, but no `wg.Wait()` appears anywhere
in the source: nothing here blocks on the decoder. -/
def mainActs : List CAct := [.closePipeW, .closePipeR, .closeFile, .setMtime]

/-- The decoder goroutine's remaining actions once the pipe's input side
is closed: write the final decoded bytes, then finish. -/
def decActs : List CAct := [.decWrite, .decDone]

/-- Interleaving semantics of the hand-off: a schedule picks at each step
which goroutine runs.  The decoder's actions are enabled only after
`closePipeW` has executed (its final read blocks until the pipe's input
side closes); the main goroutine's actions are always enabled, because
the source never waits on the decoder. -/
def interleaveActs : List Bool → List CAct → List CAct → Bool → List CAct
  | [], _, _, _ => []
  | true :: s, [], ds, w => interleaveActs s [] ds w
  | true :: s, m :: ms, ds, w =>
    m :: interleaveActs s ms ds (if m = CAct.closePipeW then true else w)
  | false :: s, ms, ds, w =>
    if w then
      match ds with
      | [] => interleaveActs s ms [] w
      | d :: ds' => d :: interleaveActs s ms ds' w
    else interleaveActs s ms ds w

/-- A concrete working directory for the concrete instances: the
canonicalized absolute root `/data`. -/
def wd0 : List Seg := [['d', 'a', 't', 'a']]

/-- A well-formed header naming the contained file `f.bin`. -/
def hOk : Header :=
  { name := ['f', '.', 'b', 'i', 'n'], size := 3, lastModified := 5, mime := [] }

/-- A header whose name escapes the root. -/
def hBad : Header :=
  { name := ['.', '.', '/', 'x'], size := 0, lastModified := 0, mime := [] }

/-- The resolved destination of `hOk` under `wd0`. -/
def pOk : List Seg := [['d', 'a', 't', 'a'], ['f', '.', 'b', 'i', 'n']]

/-- A decoder that always fails: the denotation of the gzip reader on a
corrupt or truncated stream. -/
def decNone : Bytes → Option Bytes := fun _ => none

/-- A decoder that succeeds and returns the wire bytes unchanged, for
concrete instances. -/
def decId : Bytes → Option Bytes := fun b => some b

/-- State of the destination file during the completion hand-off. -/
structure FileState where
  /-- bytes written to the file so far. -/
  content : Bytes
  /-- whether `f.Close()` has run. -/
  closed : Bool
  /-- whether the confirming `EOF` was sent to the sender
  (main.go:166). -/
  confirmed : Bool
  /-- whether the decoder's final write failed on the closed file (then
  `t.Error` is sent instead of the confirming `EOF`, main.go:164). -/
  writeFailed : Bool
  deriving DecidableEq, Repr

/-- Effect of one hand-off action on the destination file, from the
source: `decWrite` appends the decoder's remaining decoded bytes when the
file is still open (`io.Copy(dst, gzipReader)`, main.go:163) and fails
when `f.Close()` already ran; `decDone` sends the confirming `EOF` only
when the drain succeeded (main.go:163-169); `closeFile` closes the file
(main.go:226); the remaining actions do not touch the file. -/
def fileStep (finalBlock : Bytes) (st : FileState) : CAct → FileState
  | .closeFile => { st with closed := true }
  | .decWrite =>
    if st.closed then { st with writeFailed := true }
    else { st with content := st.content ++ finalBlock }
  | .decDone => if st.writeFailed then st else { st with confirmed := true }
  | _ => st

/-- The destination file at the end of the completion hand-off, for a
given schedule: `written` is the decoded prefix the decoder already wrote
to the file while chunks were streaming, `finalBlock` the decoded
remainder it still holds when the read loop receives `EOF` (the decoded
output is `written ++ finalBlock`).  The action trace is the one
`interleaveActs` produces for the schedule; the file state folds the
actions in trace order. -/
def runHandoff (written finalBlock : Bytes) (sched : List Bool) : FileState :=
  (interleaveActs sched mainActs decActs false).foldl (fileStep finalBlock)
    { content := written, closed := false, confirmed := false, writeFailed := false }

theorem commonStrip_eq_nil (bs : List Seg) :
    ∀ ts t, commonStrip bs ts = ([], t) → ts = bs ++ t := by
  induction bs with
  | nil =>
    intro ts t h
    simp [commonStrip] at h
    simp [h]
  | cons b bs ih =>
    intro ts t h
    cases ts with
    | nil => simp [commonStrip] at h
    | cons x xs =>
      by_cases hbx : b = x
      · subst hbx
        rw [commonStrip, if_pos rfl] at h
        have := ih xs t h
        simp [this]
      · rw [commonStrip, if_neg hbx] at h
        simp at h

/-- Soundness of the containment check: every accepted name resolves to a
path strictly inside the working directory. -/
theorem createFileWriterCheck_sound (wd : List Seg) (name : Str) (p : List Seg)
    (h : createFileWriterCheck wd name = .ok p) :
    ∃ t, t ≠ [] ∧ p = wd ++ t := by
  by_cases h1 : relString wd name = dotdotStr
  · simp [createFileWriterCheck, h1] at h
  by_cases h2 : (relString wd name).length < 2
  · simp [createFileWriterCheck, h1, h2] at h
  by_cases h3 : (relString wd name).take 2 = dotdotStr
  · simp [createFileWriterCheck, h1, h2, h3] at h
  have hp : joinedPath wd name = p := by
    simpa [createFileWriterCheck, h1, h2, h3] using h
  rcases hcs : commonStrip wd (joinedPath wd name) with ⟨b, t⟩
  cases b with
  | nil =>
    cases t with
    | nil =>
      exfalso
      apply h2
      simp [relString, goFilepathRel, hcs, renderPath, dotSeg]
    | cons x xs =>
      refine ⟨x :: xs, by simp, ?_⟩
      have hsplit : joinedPath wd name = wd ++ x :: xs :=
        commonStrip_eq_nil wd (joinedPath wd name) (x :: xs) hcs
      rw [← hp, hsplit]
  | cons a l =>
    exfalso
    have hrel : goFilepathRel wd (joinedPath wd name)
        = dotdotSeg :: (List.replicate l.length dotdotSeg ++ t) := by
      simp [goFilepathRel, hcs, List.replicate_succ]
    rcases hrest : List.replicate l.length dotdotSeg ++ t with _ | ⟨y, ys⟩
    · apply h1
      simp only [relString, hrel, hrest]
      simp [renderPath, dotdotStr, dotdotSeg]
    · apply h3
      simp only [relString, hrel, hrest]
      simp [renderPath, dotdotStr, dotdotSeg]

theorem copyLoop_bins_eof (chunks : List Bytes) (rest : List WireMsg) :
    ∀ acc, copyLoop (chunks.map WireMsg.bin ++ WireMsg.text eofStr :: rest) acc
      = (.okEOF, acc ++ concatBytes chunks, rest) := by
  induction chunks with
  | nil => intro acc; simp [copyLoop, concatBytes]
  | cons c cs ih =>
    intro acc
    simp only [List.map_cons, List.cons_append, copyLoop, List.append_eq]
    rw [ih (acc ++ c)]
    simp [concatBytes, List.append_assoc]

/-- C1 counterexample: the name `a/../bc` contains a parent-escape
segment, yet the containment guard of `CreateFileWriter` accepts it (it
resolves to `bc` inside the root), so the guard does not reject every
name containing a parent-escape segment. -/
theorem c1_escape_counterexample :
    hasParentEscape ['a', '/', '.', '.', '/', 'b', 'c'] = true
    ∧ createFileWriterCheck wd0 ['a', '/', '.', '.', '/', 'b', 'c']
      = .ok [['d', 'a', 't', 'a'], ['b', 'c']] := by
  constructor
  · decide
  · rfl

/-- C1 (amended): every name the guard accepts resolves to a path
strictly inside the working directory, and every name the guard rejects
is rejected before any directory or file creation (no filesystem events);
so no file ever appears outside the configured root, even though a name
containing a parent-escape segment that resolves inside the root is
accepted rather than rejected. -/
theorem c1_guard_amended (wd : List Seg) (name : Str) :
    (∀ p, createFileWriterCheck wd name = .ok p → ∃ t, t ≠ [] ∧ p = wd ++ t)
    ∧ (∀ e, createFileWriterCheck wd name = .error e →
        createFileWriterEvents wd name = ([], .error e)) := by
  constructor
  · intro p hp
    exact createFileWriterCheck_sound wd name p hp
  · intro e he
    simp [createFileWriterEvents, he]

/-- C1 witness: the amended guard theorem applied to the accepted name
`f.bin` and to the rejected escape `../x` under the root `/data`. -/
theorem c1_guard_amended_witness :
    (∃ t, t ≠ [] ∧ pOk = wd0 ++ t)
    ∧ createFileWriterEvents wd0 hBad.name = ([], .error .outsideWd) :=
  ⟨(c1_guard_amended wd0 hOk.name).1 pOk (by rfl),
   (c1_guard_amended wd0 hBad.name).2 .outsideWd (by rfl)⟩

/-- C2: the source never calls `wg.Wait()`, so there is a schedule of the
completion hand-off in which the main goroutine closes the file and sets
its modification time before the gzip goroutine writes the final decoded
bytes: the receiver does not wait for the decoder to drain before
finalizing the file. -/
theorem c2_handoff_bug :
    interleaveActs [true, true, true, true, false, false] mainActs decActs false
      = [.closePipeW, .closePipeR, .closeFile, .setMtime, .decWrite, .decDone]
    ∧ (interleaveActs [true, true, true, true, false, false] mainActs decActs
        false).take 4
      = [.closePipeW, .closePipeR, .closeFile, .setMtime] := by
  constructor
  · decide
  · decide

/-- C3 counterexample: for the header naming `../x`, `Process` emits
`READY` even though opening the destination file fails (the guard
rejects), so `READY` is not emitted only after the file handle is
successfully opened. -/
theorem c3_ready_counterexample :
    processBody wd0 decId [.jsonHeader hBad]
      = (.err, [.awaitHeader, .sentReady], [])
    ∧ Event.sentReady ∈ (processBody wd0 decId [.jsonHeader hBad]).2.1 := by
  constructor
  · decide
  · decide

/-- C3 (amended): `Process` emits `READY` immediately after parsing a
header with a non-empty name, before the destination file is opened; when
opening fails, the session ends with an error, but `READY` has already
been sent for that header. -/
theorem c3_ready_amended (wd : List Seg) (dec : Bytes → Option Bytes)
    (h : Header) (rest : List WireMsg) (hname : h.name ≠ []) :
    ((processBody wd dec (.jsonHeader h :: rest)).2.1).take 2
      = [Event.awaitHeader, Event.sentReady]
    ∧ (∀ e, createFileWriterCheck wd h.name = .error e →
        processBody wd dec (.jsonHeader h :: rest)
          = (.err, [.awaitHeader, .sentReady], rest)) := by
  constructor
  · rcases hg : createFileWriterCheck wd h.name with e | p
    · simp [processBody, hname, hg]
    · simp only [processBody, if_neg hname, hg]
      rcases hc : copyLoop rest [] with ⟨o, acc, rest'⟩
      cases o
      · rcases hd : dec acc with _ | out
        · simp [runFile, hc, hd]
        · simp [runFile, hc, hd]
      · simp [runFile, hc]
      · simp [runFile, hc]
      · simp [runFile, hc]
  · intro e he
    simp [processBody, hname, he]

/-- C3 witness: the amended theorem applied to the escaping header
`../x`, whose file open fails while `READY` was already emitted. -/
theorem c3_ready_amended_witness :
    processBody wd0 decId [.jsonHeader hBad]
      = (.err, [.awaitHeader, .sentReady], []) :=
  (c3_ready_amended wd0 decId hBad [] (by decide)).2 .outsideWd (by rfl)

/-- C4: the round trip is schedule-dependent, so processing a valid
header, well-formed payload and `EOF` does not always produce a file with
the original bytes.  With the decoded output split as the already-written
prefix `[1]` plus the final block `[2, 3]`: under the schedule that lets
the decoder drain before the read-loop goroutine proceeds, the file ends
with the full original bytes `[1, 2, 3]` and the confirming `EOF` is
sent; under the schedule admitted by the missing `wg.Wait()`, `f.Close()`
runs before the decoder's final write, that write fails, the file keeps
only the truncated prefix `[1]` and the confirming `EOF` is never
sent. -/
theorem c4_truncation_bug :
    runHandoff [1] [2, 3] [true, false, false, true, true, true]
      = { content := [1, 2, 3], closed := true, confirmed := true,
          writeFailed := false }
    ∧ runHandoff [1] [2, 3] [true, true, true, true, false, false]
      = { content := [1], closed := true, confirmed := false,
          writeFailed := true }
    ∧ ([1] : Bytes) ≠ [1, 2, 3] := by
  refine ⟨by decide, by decide, by decide⟩

/-- C5: whatever way a file phase ends, the deferred finalisation stamps
the destination file with a modification time of exactly
`h.lastModified` milliseconds after the epoch (`time.UnixMilli`,
main.go:231-233). -/
theorem c5_mtime_millis (wd : List Seg) (dec : Bytes → Option Bytes)
    (h : Header) (rest : List WireMsg) (p : List Seg) (c : Option Bytes)
    (mt : Int)
    (hmem : Event.finalize p c mt
      ∈ (processBody wd dec (.jsonHeader h :: rest)).2.1) :
    mt = h.lastModified * 1000000 := by
  by_cases hname : h.name = []
  · simp [processBody, hname] at hmem
  rcases hg : createFileWriterCheck wd h.name with e | q
  · simp [processBody, hname, hg] at hmem
  · simp only [processBody, if_neg hname, hg] at hmem
    rcases hc : copyLoop rest [] with ⟨o, acc, rest'⟩
    cases o
    · rcases hd : dec acc with _ | out
      · simp [runFile, hc, hd, goTimeUnixMilli] at hmem
        tauto
      · simp [runFile, hc, hd, goTimeUnixMilli] at hmem
        tauto
    · simp [runFile, hc, goTimeUnixMilli] at hmem
      tauto
    · simp [runFile, hc, goTimeUnixMilli] at hmem
      tauto
    · simp [runFile, hc, goTimeUnixMilli] at hmem
      tauto

/-- C5 witness: the completed transfer of `f.bin` with
`lastModified = 5` is finalised with an mtime of 5 epoch-milliseconds,
i.e. 5000000 epoch-nanoseconds. -/
theorem c5_mtime_millis_witness :
    Event.finalize pOk (some [1, 2, 3]) 5000000
      ∈ (processBody wd0 decId
          (.jsonHeader hOk :: [.bin [1, 2, 3], .text eofStr])).2.1
    ∧ (5000000 : Int) = hOk.lastModified * 1000000 :=
  ⟨by decide,
   c5_mtime_millis wd0 decId hOk [.bin [1, 2, 3], .text eofStr] pOk
     (some [1, 2, 3]) 5000000 (by decide)⟩

/-- C6 counterexample: a decode failure (modelled by the always-failing
decoder) on a fully delivered file is reported to the sender via an
error message, but the read loop still treats the `EOF` as success: the
receiver returns to AwaitingHeader (two `awaitHeader` events) and even
ends the session cleanly on the following `EOT`, rather than ending the
session at the failure. -/
theorem c6_failure_counterexample :
    sessionRun wd0 decNone
        [.jsonHeader hOk, .bin [1, 2, 3], .text eofStr, .text eotStr]
      = (.clean,
         [.awaitHeader, .sentReady, .mkdirAll [['d', 'a', 't', 'a']],
          .createFile pOk, .sentError, .finalize pOk none 5000000,
          .awaitHeader])
    ∧ (sessionRun wd0 decNone
        [.jsonHeader hOk, .bin [1, 2, 3], .text eofStr, .text eotStr]).2.count
          Event.awaitHeader = 2 := by
  constructor
  · decide
  · decide

/-- C6 (amended): a decode or write failure inside the decompression
pipeline is signalled to the sender as an error message, but it does not
by itself end the session: the read loop returns success for the file
and the receiver proceeds to the remaining messages in AwaitingHeader;
only failures surfacing in the read loop itself end the session. -/
theorem c6_failure_amended (wd : List Seg) (dec : Bytes → Option Bytes)
    (h : Header) (p : List Seg) (chunks : List Bytes) (rest : List WireMsg)
    (hname : h.name ≠ []) (hg : createFileWriterCheck wd h.name = .ok p)
    (hdec : dec (concatBytes chunks) = none) :
    processBody wd dec
        (.jsonHeader h :: (chunks.map WireMsg.bin ++ WireMsg.text eofStr :: rest))
      = (.ok, [.awaitHeader, .sentReady, .mkdirAll p.dropLast, .createFile p,
          .sentError, .finalize p none (goTimeUnixMilli h.lastModified)],
         rest) := by
  have hc := copyLoop_bins_eof chunks rest ([] : Bytes)
  simp only [processBody, if_neg hname, hg, runFile, hc, List.nil_append, hdec]
  simp

/-- C6 witness: the amended theorem at the header `f.bin`, one payload
chunk, and the always-failing decoder. -/
theorem c6_failure_amended_witness :
    processBody wd0 decNone
        (.jsonHeader hOk :: ([[9]].map WireMsg.bin ++ WireMsg.text eofStr :: []))
      = (.ok, [.awaitHeader, .sentReady, .mkdirAll pOk.dropLast, .createFile pOk,
          .sentError, .finalize pOk none (goTimeUnixMilli hOk.lastModified)],
         []) :=
  c6_failure_amended wd0 decNone hOk pOk [[9]] [] (by decide) (by rfl) (by rfl)

/-- C7 counterexample: in the chunk-reading state, the text message
`BANANA` is neither an error nor written to the file: the transfer
completes cleanly with exactly the binary payload as contents and no
error message is ever sent. -/
theorem c7_text_counterexample :
    sessionRun wd0 decId
        [.jsonHeader hOk, .text ['B', 'A', 'N', 'A', 'N', 'A'],
         .bin [1, 2, 3], .text eofStr, .text eotStr]
      = (.clean,
         [.awaitHeader, .sentReady, .mkdirAll [['d', 'a', 't', 'a']],
          .createFile pOk, .sentEOF, .finalize pOk (some [1, 2, 3]) 5000000,
          .awaitHeader])
    ∧ Event.sentError ∉ (sessionRun wd0 decId
        [.jsonHeader hOk, .text ['B', 'A', 'N', 'A', 'N', 'A'],
         .bin [1, 2, 3], .text eofStr, .text eotStr]).2 := by
  constructor
  · decide
  · decide

/-- C7 (amended): in the chunk-reading state, any text message other than
the `EOF` and `EOT` literals is silently ignored — it contributes no
bytes and no error, and the read loop behaves exactly as if the message
had not been sent. -/
theorem c7_text_ignored_amended (s : Str) (h1 : s ≠ eofStr) (h2 : s ≠ eotStr) :
    ∀ (pre : List Bytes) (post : List WireMsg) (acc : Bytes),
      copyLoop (pre.map WireMsg.bin ++ WireMsg.text s :: post) acc
        = copyLoop (pre.map WireMsg.bin ++ post) acc := by
  intro pre
  induction pre with
  | nil =>
    intro post acc
    simp [copyLoop, h1, h2]
  | cons c cs ih =>
    intro post acc
    simp only [List.map_cons, List.cons_append, copyLoop, List.append_eq]
    exact ih post (acc ++ c)

/-- C7 witness: the amended theorem at the text message `BANANA` amid one
binary chunk. -/
theorem c7_text_ignored_amended_witness :
    copyLoop ([[7]].map WireMsg.bin
        ++ WireMsg.text ['B', 'A', 'N', 'A', 'N', 'A'] :: [WireMsg.text eofStr]) []
      = copyLoop ([[7]].map WireMsg.bin ++ [WireMsg.text eofStr]) [] :=
  c7_text_ignored_amended ['B', 'A', 'N', 'A', 'N', 'A'] (by decide) (by decide)
    [[7]] [WireMsg.text eofStr] []

/-- C8: a session whose first message is the `EOT` text literal ends
cleanly: no header is processed, no directory or file is created, no
`READY` is sent, and no error is reported to the peer. -/
theorem c8_eot_clean (wd : List Seg) (dec : Bytes → Option Bytes)
    (rest : List WireMsg) :
    sessionRun wd dec (.text eotStr :: rest) = (.clean, [.awaitHeader]) := by
  simp [sessionRun, sessionGo, processBody]

/-- C9 counterexample: with the outstanding buffered amount exactly at
the 2 MiB threshold, `BlockingWebSocket.send` hands the frame to the
socket immediately, although the buffered amount is not below the
threshold: the send guard is `at most`, not `strictly below`. -/
theorem c9_threshold_counterexample :
    bufferedThreshold = 2097152
    ∧ bwsRun bufferedThreshold true [bufferedThreshold]
      = [.check bufferedThreshold, .send bufferedThreshold]
    ∧ ¬bufferedThreshold < bufferedThreshold := by
  refine ⟨by decide, by decide, by decide⟩

/-- C9 (amended): `BlockingWebSocket.send` hands a frame to the socket
only at a poll that observed the buffered amount at or below the
threshold, and schedules a 50 ms re-poll delay only at a poll that
observed it above the threshold. -/
theorem c9_backpressure_amended (th : Nat) (mode : Bool) (vs : List Nat)
    (v : Nat) :
    (SEv.send v ∈ bwsRun th mode vs → v ≤ th)
    ∧ (SEv.delay50 v ∈ bwsRun th mode vs → th < v) := by
  induction vs generalizing mode with
  | nil => simp [bwsRun]
  | cons x xs ih =>
    cases mode with
    | true =>
      by_cases hx : th < x
      · simpa [bwsRun, hx] using ih false
      · constructor
        · intro hm
          simp [bwsRun, hx] at hm
          omega
        · intro hm
          simp [bwsRun, hx] at hm
    | false =>
      by_cases hx : x ≤ th
      · simpa [bwsRun, hx] using ih true
      · constructor
        · intro hm
          simp [bwsRun, hx] at hm
          exact (ih false).1 hm
        · intro hm
          simp [bwsRun, hx] at hm
          rcases hm with hm | hm
          · omega
          · exact (ih false).2 hm

/-- C9 witness: the amended theorem at threshold 10 and a first
observation of 5, which is sent at once. -/
theorem c9_backpressure_amended_witness :
    SEv.send 5 ∈ bwsRun 10 true [5] ∧ 5 ≤ 10 :=
  ⟨by decide, (c9_backpressure_amended 10 true [5] 5).1 (by decide)⟩

/-- C10: for the single-character name `a` the resolved relative path is
`a`, shorter than two bytes, and the containment check reaches the
unguarded slice `relPath[:2]`: the check is not total — it is a runtime
slice-bounds violation rather than an accept. -/
theorem c10_slice_bug :
    relString wd0 ['a'] = ['a']
    ∧ createFileWriterCheck wd0 ['a'] = .error .sliceBound := by
  refine ⟨by decide, by rfl⟩
